import Mathlib

/-!
Verification of the FantasyHelp frontend request/cache/error pipeline
(src/frontend/js/api.js) against its natural-language specification.

The JavaScript code is shallowly embedded: the in-memory cache (class
CacheManager), the cached fetch wrapper (CachedApiService.cachedGet), the
retrying HTTP client (APIClient.request / APIClient.fetchWithRetry) and the
concurrency limiter (class RequestQueue) become pure Lean functions over
explicit state.  Time is a natural number of milliseconds; the JavaScript
call Date.now() becomes an explicit parameter.  Network behaviour is an
oracle mapping each attempt number to the outcome fetch would produce.
-/

/-- A JSON-ish value as stored in the cache and carried in responses.
JavaScript null is a first-class value here, because the code uses null both
as a cache-miss sentinel and as a storable datum.  The obj constructor keeps
just the one field the code reads (data.message, an optional string). -/
inductive Value where
  | null : Value
  | num (n : Nat) : Value
  | str (s : String) : Value
  | obj (message : Option String) : Value
deriving DecidableEq, Repr

/-- The message field of a JSON object, as read by result.data?.message;
undefined on every non-object value. -/
def Value.messageField : Value → Option String
  | .obj m => m
  | _ => none

/-- A thrown JavaScript error: the two fields the code inspects.  An
AbortError is a JsError whose name field is the string AbortError. -/
structure JsError where
  name : String
  message : String
deriving DecidableEq, Repr

/-! ## CacheManager (src/frontend/js/api.js lines 315-364)

The JavaScript Map from keys to { data, expiry } objects becomes an
association list with at most one entry per key (set replaces). -/

/-- One cache entry: { data, expiry } as stored by CacheManager.set. -/
structure CacheItem where
  data : Value
  expiry : Nat
deriving DecidableEq, Repr

/-- The CacheManager state: its Map, keyed by strings. -/
abbrev Cache := List (String × CacheItem)

/-- Map.get: the entry currently stored for a key, if any. -/
def Cache.findItem (c : Cache) (k : String) : Option CacheItem :=
  (c.find? (fun p => p.1 = k)).map (fun p => p.2)

/-- CacheManager.delete(key): Map.delete removes the entry for the key. -/
def Cache.del (c : Cache) (k : String) : Cache :=
  c.filter (fun p => p.1 ≠ k)

/-- CacheManager.set(key, data, ttl): stores { data, expiry: Date.now() + ttl },
replacing any previous entry for the key (Map.set). -/
def Cache.set (c : Cache) (k : String) (d : Value) (now ttl : Nat) : Cache :=
  (k, ⟨d, now + ttl⟩) :: c.del k

/-- CacheManager.get(key) at time now: returns null when the key is absent;
deletes the entry and returns null when Date.now() > expiry; otherwise
returns the stored data.  The second component is the cache after the
lookup (mutated only by the lazy eviction). -/
def Cache.get (c : Cache) (k : String) (now : Nat) : Value × Cache :=
  match c.findItem k with
  | none => (Value.null, c)
  | some item =>
    if now > item.expiry then (Value.null, c.del k)
    else (item.data, c)

/-! ## CachedApiService.cachedGet (src/frontend/js/api.js lines 372-386) -/

/-- Outcome of one cachedGet call: the value returned or error rethrown, the
cache afterwards, and whether the fetcher was invoked. -/
structure CachedGetResult where
  result : Except JsError Value
  cache : Cache
  fetcherCalled : Bool
deriving Repr

/-- CachedApiService.cachedGet(key, fetcher, ttl) at time now.  The fetcher
is modelled by the outcome it would produce when awaited.  The code reads
the cache, and exactly when the read yields null it awaits the fetcher,
stores a successful result with Cache.set, and rethrows a failure. -/
def cachedGet (c : Cache) (k : String) (fetcher : Except JsError Value)
    (now ttl : Nat) : CachedGetResult :=
  match c.get k now with
  | (data, c1) =>
    if data = Value.null then
      match fetcher with
      | .ok v => ⟨.ok v, c1.set k v now ttl, true⟩
      | .error e => ⟨.error e, c1, true⟩
    else ⟨.ok data, c1, false⟩

/-! ## APIClient (src/frontend/js/api.js lines 54-134, 176-183)

The network is an oracle mapping each attempt number (1-based, as in the
code) to what awaiting fetch on that attempt produces: either a resolved
Response or a rejection.  A pending fetch that the timeout aborts is the
rejection of a JsError named AbortError, and, because AbortController keeps
the signal aborted, every later fetch on the same signal rejects the same
way. -/

/-- The fields of a fetch Response the code reads.  The data field stands
for the already-decoded body (response.json() or response.text()). -/
structure Response where
  status : Nat
  statusText : String
  data : Value
deriving DecidableEq, Repr

/-- response.ok: status in the range 200-299. -/
def Response.ok (r : Response) : Bool :=
  200 ≤ r.status && r.status ≤ 299

/-- What awaiting fetch produces on a given attempt. -/
inductive FetchOutcome where
  | resolved (r : Response) : FetchOutcome
  | rejected (e : JsError) : FetchOutcome
deriving DecidableEq, Repr

/-- The JsError the abort of a fetch rejects with. -/
def abortError : JsError := ⟨"AbortError", "The user aborted a request."⟩

instance instDecidableEqExcept {ε α : Type} [DecidableEq ε] [DecidableEq α] :
    DecidableEq (Except ε α) := fun x y =>
  match x, y with
  | .ok a, .ok b =>
    if h : a = b then .isTrue (by rw [h]) else .isFalse (by simp [h])
  | .error a, .error b =>
    if h : a = b then .isTrue (by rw [h]) else .isFalse (by simp [h])
  | .ok _, .error _ => .isFalse (by simp)
  | .error _, .ok _ => .isFalse (by simp)

/-- Observable behaviour of one fetchWithRetry call: its result, the
delays awaited before each retry (in order), and how many times fetch ran. -/
structure RetryTrace where
  result : Except JsError Response
  delays : List Nat
  fetchCalls : Nat
deriving DecidableEq, Repr

/-- APIClient.fetchWithRetry(url, options, attempt) with retryAttempts ra
and retryDelay rd.  A resolved response with status at least 500 is retried
while attempt < ra after a delay of rd * attempt; any rejection is likewise
retried while attempt < ra; otherwise the response is returned or the
rejection rethrown. -/
def fetchWithRetry (ra rd : Nat) (oracle : Nat → FetchOutcome)
    (attempt : Nat) : RetryTrace :=
  match oracle attempt with
  | .resolved r =>
    if 500 ≤ r.status then
      if h : attempt < ra then
        let t := fetchWithRetry ra rd oracle (attempt + 1)
        ⟨t.result, rd * attempt :: t.delays, t.fetchCalls + 1⟩
      else ⟨.ok r, [], 1⟩
    else ⟨.ok r, [], 1⟩
  | .rejected e =>
    if h : attempt < ra then
      let t := fetchWithRetry ra rd oracle (attempt + 1)
      ⟨t.result, rd * attempt :: t.delays, t.fetchCalls + 1⟩
    else ⟨.error e, [], 1⟩
termination_by ra - attempt

/-- The APIError class (lines 176-183): message, status and data fields.
The data field defaults to null at construction. -/
structure APIError where
  message : String
  status : Nat
  data : Value
deriving DecidableEq, Repr

/-- What a failed APIClient.request rejects with: either an APIError thrown
by request itself, or an unconverted JsError rethrown as-is. -/
inductive ReqError where
  | api (e : APIError) : ReqError
  | raw (e : JsError) : ReqError
deriving DecidableEq, Repr

/-- Whether a surfaced failure is an APIError (carries message, status and
data fields), as opposed to a raw rethrown JsError. -/
def ReqError.isAPIError : ReqError → Bool
  | .api _ => true
  | .raw _ => false

/-- result.data?.message || response.statusText: the message of the
APIError a non-ok response raises.  The JavaScript or-operator falls back
on the status text when the message field is absent or the empty string. -/
def errorMessage (r : Response) : String :=
  match r.data.messageField with
  | some m => if m = "" then r.statusText else m
  | none => r.statusText

/-- Observable behaviour of one APIClient.request call. -/
structure RequestResult where
  result : Except ReqError Value
  delays : List Nat
  fetchCalls : Nat
deriving DecidableEq, Repr

/-- APIClient.request (lines 54-114), interceptors left as registered at
construction (the default ones only shape headers).  It runs fetchWithRetry
from attempt 1; on a resolved non-ok response it throws an APIError built
from the decoded body and status; on a resolved ok response it returns the
decoded body; a rejection named AbortError becomes APIError with message
Request timeout and status 408 (data left at its null default); any other
rejection is rethrown unchanged. -/
def request (ra rd : Nat) (oracle : Nat → FetchOutcome) : RequestResult :=
  let t := fetchWithRetry ra rd oracle 1
  match t.result with
  | .ok r =>
    if r.ok then ⟨.ok r.data, t.delays, t.fetchCalls⟩
    else ⟨.error (.api ⟨errorMessage r, r.status, r.data⟩), t.delays, t.fetchCalls⟩
  | .error e =>
    if e.name = "AbortError" then
      ⟨.error (.api ⟨"Request timeout", 408, Value.null⟩), t.delays, t.fetchCalls⟩
    else ⟨.error (.raw e), t.delays, t.fetchCalls⟩

/-! ## RequestQueue (src/frontend/js/api.js lines 497-533)

JavaScript runs single-threaded: the body of processNext up to the await,
and the finally block after an operation settles, each run atomically
between suspension points (spec section 5).  The observable history is
therefore a sequence of atomic events: an add call (push the operation,
then processNext) and the settling of a running operation (decrement
running in the finally block, then processNext).  Operations are named by
identifiers; the step function also reports which queued operation, if
any, the triggered processNext started. -/

/-- The RequestQueue fields: maxConcurrent, the running counter, and the
queue of pending operations in push order. -/
structure RQ where
  maxConcurrent : Nat
  running : Nat
  queue : List Nat
deriving DecidableEq, Repr

/-- The constructor: new RequestQueue(maxConcurrent). -/
def RQ.init (maxConcurrent : Nat) : RQ :=
  ⟨maxConcurrent, 0, []⟩

/-- RequestQueue.processNext: returns without change when running has
reached maxConcurrent or the queue is empty; otherwise increments running,
shifts the first queued operation and starts it (reported as the second
component). -/
def RQ.processNext (q : RQ) : RQ × Option Nat :=
  if q.running ≥ q.maxConcurrent ∨ q.queue = [] then (q, none)
  else
    match q.queue with
    | [] => (q, none)
    | op :: rest => (⟨q.maxConcurrent, q.running + 1, rest⟩, some op)

/-- RequestQueue.add(requestFunction): pushes the operation at the back of
the queue and calls processNext. -/
def RQ.enqueue (q : RQ) (op : Nat) : RQ × Option Nat :=
  RQ.processNext ⟨q.maxConcurrent, q.running, q.queue ++ [op]⟩

/-- The finally block of processNext, run when a running operation settles
(resolve or reject alike): decrements running and calls processNext. -/
def RQ.settle (q : RQ) : RQ × Option Nat :=
  RQ.processNext ⟨q.maxConcurrent, q.running - 1, q.queue⟩

/-- An atomic event in the history of the queue. -/
inductive RQEv where
  | push (op : Nat) : RQEv
  | settle : RQEv
deriving DecidableEq, Repr

/-- One event step. -/
def RQ.step (q : RQ) : RQEv → RQ × Option Nat
  | .push op => q.enqueue op
  | .settle => q.settle

/-- Run a sequence of events, collecting the operations in the order they
were started. -/
def RQ.run (q : RQ) : List RQEv → RQ × List Nat
  | [] => (q, [])
  | e :: rest =>
    let s := q.step e
    let r := s.1.run rest
    (r.1, s.2.toList ++ r.2)

/-- The operations submitted over a sequence of events, in submission
order. -/
def RQEv.submitted (evs : List RQEv) : List Nat :=
  evs.filterMap (fun e => match e with | .push op => some op | .settle => none)

/-! ## Derived notions used in the statements -/

/-- Number of entries the cache holds for a key. -/
def Cache.countKey (c : Cache) (k : String) : Nat :=
  c.countP (fun p => decide (p.1 = k))

/-- Whether an attempt outcome triggers the retry branch of fetchWithRetry:
a resolved response with status at least 500, or any rejection. -/
def FetchOutcome.retryable : FetchOutcome → Bool
  | .resolved r => 500 ≤ r.status
  | .rejected _ => true

/-- The result fetchWithRetry settles with once it stops retrying at the
final attempt: the response resolved there, or the rejection rethrown. -/
def finalOutcome (oracle : Nat → FetchOutcome) (ra : Nat) : Except JsError Response :=
  match oracle ra with
  | .resolved r => .ok r
  | .rejected e => .error e

/-! ## Helper lemmas -/

theorem Cache.findItem_del (c : Cache) (k : String) : (c.del k).findItem k = none := by
  unfold Cache.findItem Cache.del
  have h : List.find? (fun p => decide (p.1 = k))
      (List.filter (fun p => decide (p.1 ≠ k)) c) = none := by
    rw [List.find?_eq_none]
    intro p hp
    have h2 := (List.mem_filter.mp hp).2
    simp at h2 ⊢
    exact h2
  rw [h]
  rfl

theorem Cache.countKey_del (c : Cache) (k : String) : (c.del k).countKey k = 0 := by
  unfold Cache.countKey Cache.del
  rw [List.countP_eq_zero]
  intro p hp
  have h2 := (List.mem_filter.mp hp).2
  simp at h2 ⊢
  exact h2

theorem Cache.findItem_set (c : Cache) (k : String) (d : Value) (now ttl : Nat) :
    (c.set k d now ttl).findItem k = some ⟨d, now + ttl⟩ := by
  simp [Cache.set, Cache.findItem, List.find?]

/-- Reading an entry whose stored data is null, or reading an absent key,
yields null. -/
theorem Cache.get_fst_null (c : Cache) (k : String) (now : Nat)
    (h : c.findItem k = none ∨ ∃ item, c.findItem k = some item ∧ item.data = Value.null) :
    (c.get k now).1 = Value.null := by
  unfold Cache.get
  rcases h with h | ⟨item, hfind, hdata⟩
  · rw [h]
  · rw [hfind]
    by_cases hlt : now > item.expiry
    · simp [hlt]
    · simp [hlt, hdata]

/-- Whenever the initial cache read of cachedGet yields null, the fetcher is
invoked, whatever it returns. -/
theorem cachedGet_fetcherCalled (c : Cache) (k : String) (f : Except JsError Value)
    (now ttl : Nat) (h : (c.get k now).1 = Value.null) :
    (cachedGet c k f now ttl).fetcherCalled = true := by
  unfold cachedGet
  rcases hg : c.get k now with ⟨data, c1⟩
  rw [hg] at h
  simp only at h
  subst h
  simp only [hg]
  cases f <;> simp

/-- processNext preserves maxConcurrent and, under the invariant, keeps the
running counter at or below it. -/
theorem RQ.processNext_inv (q : RQ) (h : q.running ≤ q.maxConcurrent) :
    q.processNext.1.running ≤ q.maxConcurrent ∧
    q.processNext.1.maxConcurrent = q.maxConcurrent := by
  unfold RQ.processNext
  split
  · exact ⟨h, rfl⟩
  · rename_i hc
    push_neg at hc
    rcases hq : q.queue with _ | ⟨op, rest⟩
    · exact ⟨h, rfl⟩
    · exact ⟨hc.1, rfl⟩

/-- The operation processNext starts, followed by the queue it leaves,
is exactly the queue it was given. -/
theorem RQ.processNext_queue (q : RQ) :
    q.processNext.2.toList ++ q.processNext.1.queue = q.queue := by
  unfold RQ.processNext
  split
  · simp
  · rcases hq : q.queue with _ | ⟨op, rest⟩
    · simp
      exact hq
    · simp [hq]

/-- Invariant preservation along any event history: the running counter
stays at or below maxConcurrent, which itself never changes. -/
theorem RQ.run_inv (evs : List RQEv) :
    ∀ q : RQ, q.running ≤ q.maxConcurrent →
      (q.run evs).1.running ≤ (q.run evs).1.maxConcurrent ∧
      (q.run evs).1.maxConcurrent = q.maxConcurrent := by
  induction evs with
  | nil => intro q h; exact ⟨h, rfl⟩
  | cons e rest ih =>
    intro q h
    rcases e with op | _
    · show ((RQ.enqueue q op).1.run rest).1.running ≤ ((RQ.enqueue q op).1.run rest).1.maxConcurrent ∧
        ((RQ.enqueue q op).1.run rest).1.maxConcurrent = q.maxConcurrent
      have hstep := RQ.processNext_inv ⟨q.maxConcurrent, q.running, q.queue ++ [op]⟩ h
      have hrun := ih (RQ.enqueue q op).1 (by
        show (RQ.processNext ⟨q.maxConcurrent, q.running, q.queue ++ [op]⟩).1.running ≤ _
        rw [show (RQ.enqueue q op).1.maxConcurrent =
          (⟨q.maxConcurrent, q.running, q.queue ++ [op]⟩ : RQ).maxConcurrent from hstep.2]
        exact hstep.1)
      refine ⟨hrun.1, ?_⟩
      rw [hrun.2]
      exact hstep.2
    · show ((RQ.settle q).1.run rest).1.running ≤ ((RQ.settle q).1.run rest).1.maxConcurrent ∧
        ((RQ.settle q).1.run rest).1.maxConcurrent = q.maxConcurrent
      have hstep := RQ.processNext_inv ⟨q.maxConcurrent, q.running - 1, q.queue⟩
        (Nat.le_trans (Nat.sub_le _ _) h)
      have hrun := ih (RQ.settle q).1 (by
        show (RQ.processNext ⟨q.maxConcurrent, q.running - 1, q.queue⟩).1.running ≤ _
        rw [show (RQ.settle q).1.maxConcurrent =
          (⟨q.maxConcurrent, q.running - 1, q.queue⟩ : RQ).maxConcurrent from hstep.2]
        exact hstep.1)
      refine ⟨hrun.1, ?_⟩
      rw [hrun.2]
      exact hstep.2

/-- FIFO invariant: the operations started so far, followed by those still
queued, are the initial queue followed by the submissions, in order. -/
theorem RQ.run_fifo_inv (evs : List RQEv) :
    ∀ q : RQ, (q.run evs).2 ++ (q.run evs).1.queue = q.queue ++ RQEv.submitted evs := by
  induction evs with
  | nil => intro q; simp [RQ.run, RQEv.submitted]
  | cons e rest ih =>
    intro q
    rcases e with op | _
    · show ((q.enqueue op).2.toList ++ ((q.enqueue op).1.run rest).2) ++
        ((q.enqueue op).1.run rest).1.queue = q.queue ++ RQEv.submitted (.push op :: rest)
      rw [List.append_assoc, ih]
      have hq : (q.enqueue op).2.toList ++ (q.enqueue op).1.queue = q.queue ++ [op] :=
        RQ.processNext_queue ⟨q.maxConcurrent, q.running, q.queue ++ [op]⟩
      calc (q.enqueue op).2.toList ++ ((q.enqueue op).1.queue ++ RQEv.submitted rest)
      _ = ((q.enqueue op).2.toList ++ (q.enqueue op).1.queue) ++ RQEv.submitted rest := by
          rw [List.append_assoc]
      _ = (q.queue ++ [op]) ++ RQEv.submitted rest := by rw [hq]
      _ = q.queue ++ RQEv.submitted (.push op :: rest) := by
          simp [RQEv.submitted]
    · show (q.settle.2.toList ++ (q.settle.1.run rest).2) ++
        (q.settle.1.run rest).1.queue = q.queue ++ RQEv.submitted (.settle :: rest)
      rw [List.append_assoc, ih]
      have hq : q.settle.2.toList ++ q.settle.1.queue = q.queue :=
        RQ.processNext_queue ⟨q.maxConcurrent, q.running - 1, q.queue⟩
      calc q.settle.2.toList ++ (q.settle.1.queue ++ RQEv.submitted rest)
      _ = (q.settle.2.toList ++ q.settle.1.queue) ++ RQEv.submitted rest := by
          rw [List.append_assoc]
      _ = q.queue ++ RQEv.submitted (.settle :: rest) := by
          rw [hq]; simp [RQEv.submitted]

/-- When every attempt strictly before the last is retryable, fetchWithRetry
runs all remaining attempts, records the linearly growing delays, and
settles with the outcome of the final attempt. -/
theorem fetchWithRetry_retryable_spec (n : Nat) :
    ∀ (ra rd attempt : Nat) (oracle : Nat → FetchOutcome),
      ra - attempt = n → attempt ≤ ra →
      (∀ k, attempt ≤ k → k < ra → (oracle k).retryable = true) →
      fetchWithRetry ra rd oracle attempt =
        ⟨finalOutcome oracle ra,
         (List.range (ra - attempt)).map (fun i => rd * (attempt + i)),
         ra - attempt + 1⟩ := by
  induction n with
  | zero =>
    intro ra rd attempt oracle hn hle _
    have heq : attempt = ra := by omega
    subst heq
    unfold fetchWithRetry
    rcases ho : oracle attempt with r | e
    · simp [finalOutcome, ho, Nat.lt_irrefl]
    · simp [finalOutcome, ho, Nat.lt_irrefl]
  | succ m ih =>
    intro ra rd attempt oracle hn _ hr
    have hlt : attempt < ra := by omega
    have hrec := ih ra rd (attempt + 1) oracle (by omega) (by omega)
      (fun k hk1 hk2 => hr k (by omega) hk2)
    have hdel : rd * attempt ::
        (List.range (ra - (attempt + 1))).map (fun i => rd * (attempt + 1 + i)) =
        (List.range (ra - attempt)).map (fun i => rd * (attempt + i)) := by
      have h1 : ra - attempt = (ra - (attempt + 1)) + 1 := by omega
      rw [h1, List.range_succ_eq_map, List.map_cons, List.map_map]
      refine congrArg₂ _ (by simp) ?_
      refine List.map_congr_left ?_
      intro i _
      show rd * (attempt + 1 + i) = rd * (attempt + (i + 1))
      exact congrArg (rd * ·) (by omega)
    have hcalls : ra - (attempt + 1) + 1 + 1 = ra - attempt + 1 := by omega
    unfold fetchWithRetry
    rcases ho : oracle attempt with r | e
    · have h500 : 500 ≤ r.status := by
        have := hr attempt (Nat.le_refl _) hlt
        rw [ho] at this
        simpa [FetchOutcome.retryable] using this
      simp only [if_pos h500, dif_pos hlt, hrec, hdel, hcalls]
    · simp only [dif_pos hlt, hrec, hdel, hcalls]

/-- A rejection surfaced by fetchWithRetry came from the network oracle at
some attempt at or after the starting one. -/
theorem fetchWithRetry_error_src (n : Nat) :
    ∀ (ra rd attempt : Nat) (oracle : Nat → FetchOutcome) (e : JsError),
      ra - attempt = n →
      (fetchWithRetry ra rd oracle attempt).result = .error e →
      ∃ k, attempt ≤ k ∧ oracle k = .rejected e := by
  induction n with
  | zero =>
    intro ra rd attempt oracle e hn hres
    have hnlt : ¬ attempt < ra := by omega
    unfold fetchWithRetry at hres
    rcases ho : oracle attempt with r | e2 <;> rw [ho] at hres
    · by_cases h500 : 500 ≤ r.status <;> simp [h500, hnlt] at hres
    · simp [hnlt] at hres
      exact ⟨attempt, Nat.le_refl _, by rw [ho, hres]⟩
  | succ m ih =>
    intro ra rd attempt oracle e hn hres
    have hlt : attempt < ra := by omega
    unfold fetchWithRetry at hres
    rcases ho : oracle attempt with r | e2 <;> rw [ho] at hres
    · by_cases h500 : 500 ≤ r.status
      · simp only [if_pos h500, dif_pos hlt] at hres
        obtain ⟨k, hk, hok⟩ := ih ra rd (attempt + 1) oracle e (by omega) hres
        exact ⟨k, by omega, hok⟩
      · simp [h500] at hres
    · simp only [dif_pos hlt] at hres
      obtain ⟨k, hk, hok⟩ := ih ra rd (attempt + 1) oracle e (by omega) hres
      exact ⟨k, by omega, hok⟩

/-! ## Claims -/

/-- Claim C1: for every RequestQueue built with maxConcurrent = N, N at
least 1, and every history of submissions and settlements, the running
counter never exceeds N, and processNext starts a queued operation only
when running is strictly below maxConcurrent. -/
theorem requestQueue_bounded_concurrency (N : Nat) (evs : List RQEv) (hN : 1 ≤ N) :
    ((RQ.init N).run evs).1.running ≤ N ∧
    (∀ q : RQ, q.processNext.2.isSome = true → q.running < q.maxConcurrent) := by
  constructor
  · have h := RQ.run_inv evs (RQ.init N) (Nat.zero_le _)
    calc ((RQ.init N).run evs).1.running
    _ ≤ ((RQ.init N).run evs).1.maxConcurrent := h.1
    _ = N := h.2
  · intro q hsome
    unfold RQ.processNext at hsome
    split at hsome
    · simp at hsome
    · rename_i hc
      push_neg at hc
      exact hc.1

/-- Witness for C1 at N = 2 and a concrete six-event history. -/
theorem requestQueue_bounded_concurrency_witness :
    ((RQ.init 2).run [.push 1, .push 2, .push 3, .push 4, .settle, .push 5]).1.running ≤ 2 :=
  (requestQueue_bounded_concurrency 2 [.push 1, .push 2, .push 3, .push 4, .settle, .push 5]
    (by decide)).1

/-- Claim C2, counterexample: the claim says that at the instant
now = expiry the entry is already treated as absent, but the code expires
an entry only when Date.now() is strictly greater than expiry.  Storing 7
at time 100 with ttl 50 gives expiry 150, and get at time 150 still
returns 7, not null. -/
theorem cacheManager_get_at_expiry_counterexample :
    (Cache.get (Cache.set [] "k" (Value.num 7) 100 50) "k" 150).1 = Value.num 7 ∧
    Value.num 7 ≠ Value.null := by
  constructor
  · rfl
  · decide

/-- Claim C2 as amended: get returns the stored value at any time up to and
including expiry, leaving the cache unchanged; strictly after expiry it
returns null and removes the entry on that lookup (lazy eviction); an
absent key yields null. -/
theorem cacheManager_get_expiry_semantics (c : Cache) (k : String) (now : Nat) :
    (∀ item : CacheItem, c.findItem k = some item →
      (now ≤ item.expiry → c.get k now = (item.data, c)) ∧
      (item.expiry < now → c.get k now = (Value.null, c.del k))) ∧
    (c.findItem k = none → c.get k now = (Value.null, c)) := by
  refine ⟨fun item hfind => ⟨fun hle => ?_, fun hlt => ?_⟩, fun hnone => ?_⟩
  · unfold Cache.get
    rw [hfind]
    show (if now > item.expiry then (Value.null, c.del k) else (item.data, c)) = (item.data, c)
    rw [if_neg (by omega)]
  · unfold Cache.get
    rw [hfind]
    show (if now > item.expiry then (Value.null, c.del k) else (item.data, c)) =
      (Value.null, c.del k)
    rw [if_pos (by omega)]
  · unfold Cache.get
    rw [hnone]

/-- Witness for the amended C2: a value stored at 100 with ttl 50 is still
served at 150 and evicted at 151. -/
theorem cacheManager_get_expiry_semantics_witness :
    Cache.get (Cache.set [] "k" (Value.num 7) 100 50) "k" 150 =
      (Value.num 7, Cache.set [] "k" (Value.num 7) 100 50) ∧
    Cache.get (Cache.set [] "k" (Value.num 7) 100 50) "k" 151 =
      (Value.null, (Cache.set [] "k" (Value.num 7) 100 50).del "k") :=
  ⟨((cacheManager_get_expiry_semantics (Cache.set [] "k" (Value.num 7) 100 50) "k" 150).1
      ⟨Value.num 7, 150⟩ (by decide)).1 (by decide),
   ((cacheManager_get_expiry_semantics (Cache.set [] "k" (Value.num 7) 100 50) "k" 151).1
      ⟨Value.num 7, 150⟩ (by decide)).2 (by decide)⟩

/-- Claim C6: FIFO admission.  First, over any history starting from an
empty queue, the operations started so far followed by those still queued
equal the submissions in submission order, so operations start in the order
they were submitted.  Second, when a running operation settles while the
queue is non-empty and capacity is freed, the first queued operation is
admitted immediately by that same settlement step.  Third, the concrete
limit-1 scenario: with three submissions, only the first starts; each
settlement starts the next in submission order. -/
theorem requestQueue_fifo_admission :
    (∀ (N : Nat) (evs : List RQEv),
      ((RQ.init N).run evs).2 ++ ((RQ.init N).run evs).1.queue = RQEv.submitted evs) ∧
    (∀ (q : RQ) (op : Nat) (rest : List Nat),
      q.queue = op :: rest → q.running - 1 < q.maxConcurrent →
      q.settle = (⟨q.maxConcurrent, q.running - 1 + 1, rest⟩, some op)) ∧
    ((RQ.init 1).run [.push 1, .push 2, .push 3]).2 = [1] ∧
    ((RQ.init 1).run [.push 1, .push 2, .push 3, .settle]).2 = [1, 2] ∧
    ((RQ.init 1).run [.push 1, .push 2, .push 3, .settle, .settle]).2 = [1, 2, 3] := by
  refine ⟨fun N evs => ?_, fun q op rest hq hcap => ?_, by decide, by decide, by decide⟩
  · have h := RQ.run_fifo_inv evs (RQ.init N)
    simpa [RQ.init] using h
  · unfold RQ.settle RQ.processNext
    rw [if_neg (by simp [hq]; omega)]
    simp [hq]

/-- Witness for C6: settling with one running operation and operation 2
queued under limit 1 admits operation 2 in the same step. -/
theorem requestQueue_fifo_admission_witness :
    RQ.settle ⟨1, 1, [2]⟩ = (⟨1, 1 - 1 + 1, [2].tail⟩, some 2) :=
  requestQueue_fifo_admission.2.1 ⟨1, 1, [2]⟩ 2 [] rfl (by decide)

/-- Claim C7: a second set for the same key replaces both value and expiry,
an unexpired get afterwards returns the new value, and the cache holds
exactly one entry for the key. -/
theorem cacheManager_set_overwrites (c : Cache) (k : String) (v1 v2 : Value)
    (t1 ttl1 t2 ttl2 now : Nat) (hnow : now ≤ t2 + ttl2) :
    ((c.set k v1 t1 ttl1).set k v2 t2 ttl2).get k now =
      (v2, (c.set k v1 t1 ttl1).set k v2 t2 ttl2) ∧
    ((c.set k v1 t1 ttl1).set k v2 t2 ttl2).countKey k = 1 := by
  constructor
  · unfold Cache.get
    rw [Cache.findItem_set]
    show (if now > t2 + ttl2 then _ else _) = _
    rw [if_neg (by omega)]
  · show Cache.countKey ((k, ⟨v2, t2 + ttl2⟩) :: ((c.set k v1 t1 ttl1).del k)) k = 1
    unfold Cache.countKey
    rw [List.countP_cons]
    have h0 : Cache.countKey ((c.set k v1 t1 ttl1).del k) k = 0 :=
      Cache.countKey_del (c.set k v1 t1 ttl1) k
    unfold Cache.countKey at h0
    rw [h0]
    simp

/-- Witness for C7: overwriting key k with 9 at time 10 and ttl 5 makes an
unexpired get at time 12 return 9 from a one-entry cache. -/
theorem cacheManager_set_overwrites_witness :
    ((Cache.set [] "k" (Value.num 7) 0 100).set "k" (Value.num 9) 10 5).get "k" 12 =
      (Value.num 9, (Cache.set [] "k" (Value.num 7) 0 100).set "k" (Value.num 9) 10 5) ∧
    ((Cache.set [] "k" (Value.num 7) 0 100).set "k" (Value.num 9) 10 5).countKey "k" = 1 :=
  cacheManager_set_overwrites [] "k" (Value.num 7) (Value.num 9) 0 100 10 5 12 (by decide)

/-- Claim C3, counterexample: the claim says no retry is attempted after
the timeout-triggered abort, but the catch in fetchWithRetry does not
distinguish AbortError from other rejections.  With retryAttempts 3 and
retryDelay 1000, a fetch that the timeout aborts (every attempt on the
aborted signal rejecting with AbortError) is retried: fetch runs 3 times,
not once, with retry delays 1000 and 2000 awaited after the abort, before
the call finally fails with the synthetic 408 timeout APIError. -/
theorem timeout_abort_retries_counterexample :
    (request 3 1000 (fun _ => .rejected abortError)).fetchCalls = 3 ∧
    (request 3 1000 (fun _ => .rejected abortError)).delays = [1000, 2000] ∧
    (request 3 1000 (fun _ => .rejected abortError)).result =
      .error (.api ⟨"Request timeout", 408, Value.null⟩) := by
  refine ⟨?_, ?_, ?_⟩ <;> simp [request, fetchWithRetry, abortError]

/-- Claim C3 as amended: a call whose fetch never resolves within the
timeout is aborted and ultimately fails with the Timeout-flagged APIError
carrying synthetic status 408, message Request timeout and null data; but
fetchWithRetry does not special-case the abort rejection: it retries the
aborted attempt, each retry rejecting immediately with AbortError, until
retryAttempts total fetch calls were made and the linearly growing delays
were awaited, and only then does request convert the AbortError into the
408 error. -/
theorem timeout_abort_request_behaviour (ra rd : Nat) (hra : 1 ≤ ra) :
    (request ra rd (fun _ => .rejected abortError)).result =
      .error (.api ⟨"Request timeout", 408, Value.null⟩) ∧
    (request ra rd (fun _ => .rejected abortError)).fetchCalls = ra ∧
    (request ra rd (fun _ => .rejected abortError)).delays =
      (List.range (ra - 1)).map (fun i => rd * (1 + i)) := by
  have hf := fetchWithRetry_retryable_spec (ra - 1) ra rd 1 (fun _ => .rejected abortError)
    rfl hra (fun k _ _ => rfl)
  have hcalls : ra - 1 + 1 = ra := by omega
  unfold request
  rw [hf]
  simp only [finalOutcome]
  refine ⟨rfl, by simpa using hcalls, rfl⟩

/-- Witness for the amended C3 at retryAttempts 3, retryDelay 1000. -/
theorem timeout_abort_request_behaviour_witness :
    (request 3 1000 (fun _ => .rejected abortError)).result =
      .error (.api ⟨"Request timeout", 408, Value.null⟩) ∧
    (request 3 1000 (fun _ => .rejected abortError)).fetchCalls = 3 ∧
    (request 3 1000 (fun _ => .rejected abortError)).delays =
      (List.range (3 - 1)).map (fun i => 1000 * (1 + i)) :=
  timeout_abort_request_behaviour 3 1000 (by decide)

/-- Claim C4: while every attempt yields a transport failure or a server
error (status at least 500), fetchWithRetry retries up to retryAttempts
total attempts, awaiting retryDelay times the attempt number before each
retry (linearly growing delays), and settles with the outcome of the final
attempt; in particular with retryAttempts 3 a call resolving 503 on all
three attempts surfaces the non-ok APIError with status 503 after delays
retryDelay and 2 times retryDelay. -/
theorem server_error_retry_policy :
    (∀ (ra rd : Nat) (oracle : Nat → FetchOutcome), 1 ≤ ra →
      (∀ k, 1 ≤ k → k < ra → (oracle k).retryable = true) →
      (fetchWithRetry ra rd oracle 1).fetchCalls = ra ∧
      (fetchWithRetry ra rd oracle 1).delays =
        (List.range (ra - 1)).map (fun i => rd * (1 + i)) ∧
      (fetchWithRetry ra rd oracle 1).result = finalOutcome oracle ra) ∧
    (∀ rd : Nat,
      request 3 rd (fun _ => .resolved ⟨503, "Service Unavailable", Value.null⟩) =
        ⟨.error (.api ⟨"Service Unavailable", 503, Value.null⟩), [rd * 1, rd * 2], 3⟩) := by
  constructor
  · intro ra rd oracle hra hr
    have hf := fetchWithRetry_retryable_spec (ra - 1) ra rd 1 oracle rfl hra hr
    rw [hf]
    refine ⟨by simp; omega, rfl, rfl⟩
  · intro rd
    have hf := fetchWithRetry_retryable_spec 2 3 rd 1
      (fun _ => .resolved ⟨503, "Service Unavailable", Value.null⟩) rfl (by omega)
      (fun k _ _ => by simp [FetchOutcome.retryable])
    unfold request
    rw [hf]
    simp [finalOutcome, Response.ok, errorMessage, Value.messageField, List.range_succ]

/-- Witness for C4 at retryAttempts 3, retryDelay 1000, all attempts
resolving 503. -/
theorem server_error_retry_policy_witness :
    ((fetchWithRetry 3 1000 (fun _ => .resolved ⟨503, "Service Unavailable", Value.null⟩)
        1).fetchCalls = 3 ∧
     (fetchWithRetry 3 1000 (fun _ => .resolved ⟨503, "Service Unavailable", Value.null⟩)
        1).delays = (List.range (3 - 1)).map (fun i => 1000 * (1 + i)) ∧
     (fetchWithRetry 3 1000 (fun _ => .resolved ⟨503, "Service Unavailable", Value.null⟩)
        1).result =
       finalOutcome (fun _ => .resolved ⟨503, "Service Unavailable", Value.null⟩) 3) ∧
    request 3 7 (fun _ => .resolved ⟨503, "Service Unavailable", Value.null⟩) =
      ⟨.error (.api ⟨"Service Unavailable", 503, Value.null⟩), [7 * 1, 7 * 2], 3⟩ :=
  ⟨server_error_retry_policy.1 3 1000
      (fun _ => .resolved ⟨503, "Service Unavailable", Value.null⟩) (by decide)
      (fun k _ _ => by simp [FetchOutcome.retryable]),
   server_error_retry_policy.2 7⟩

/-- Claim C5: a response with a client-error status in the 400 to 499 range
on the first attempt is never retried: fetchWithRetry returns it from
attempt 1 with no delays, and request fails at once with the APIError
carrying that status and the decoded body. -/
theorem client_error_no_retry (ra rd : Nat) (oracle : Nat → FetchOutcome)
    (r : Response) (h1 : oracle 1 = .resolved r) (h400 : 400 ≤ r.status)
    (h499 : r.status ≤ 499) :
    fetchWithRetry ra rd oracle 1 = ⟨.ok r, [], 1⟩ ∧
    (request ra rd oracle).result = .error (.api ⟨errorMessage r, r.status, r.data⟩) ∧
    (request ra rd oracle).fetchCalls = 1 ∧
    (request ra rd oracle).delays = [] := by
  have hf : fetchWithRetry ra rd oracle 1 = ⟨.ok r, [], 1⟩ := by
    unfold fetchWithRetry
    rw [h1]
    show (if 500 ≤ r.status then _ else _) = _
    rw [if_neg (by omega)]
  refine ⟨hf, ?_, ?_, ?_⟩ <;>
    · unfold request
      rw [hf]
      have hok : r.ok = false := by
        simp [Response.ok]
        omega
      simp [hok]

/-- Witness for C5: a 404 on the first attempt with retryAttempts 3. -/
theorem client_error_no_retry_witness :
    fetchWithRetry 3 1000 (fun _ => .resolved ⟨404, "Not Found", Value.null⟩) 1 =
      ⟨.ok ⟨404, "Not Found", Value.null⟩, [], 1⟩ ∧
    (request 3 1000 (fun _ => .resolved ⟨404, "Not Found", Value.null⟩)).result =
      .error (.api ⟨errorMessage ⟨404, "Not Found", Value.null⟩, 404, Value.null⟩) ∧
    (request 3 1000 (fun _ => .resolved ⟨404, "Not Found", Value.null⟩)).fetchCalls = 1 ∧
    (request 3 1000 (fun _ => .resolved ⟨404, "Not Found", Value.null⟩)).delays = [] :=
  client_error_no_retry 3 1000 (fun _ => .resolved ⟨404, "Not Found", Value.null⟩)
    ⟨404, "Not Found", Value.null⟩ rfl (by decide) (by decide)

/-- Claim C8, counterexample: the claim says every failure surfaced by
request, including exhausted retries on transport failure, is an APIError
object carrying message, status and data.  But the catch in request
converts only AbortError; a TypeError from fetch that exhausts the retries
is rethrown unchanged and carries no status or data field. -/
theorem request_raw_error_counterexample :
    (request 3 1000 (fun _ => .rejected ⟨"TypeError", "Failed to fetch"⟩)).result =
      .error (.raw ⟨"TypeError", "Failed to fetch"⟩) ∧
    ReqError.isAPIError (.raw ⟨"TypeError", "Failed to fetch"⟩) = false := by
  constructor
  · simp [request, fetchWithRetry]
  · rfl

/-- Claim C8 as amended: every failure surfaced by request is either an
APIError carrying message, status and data — produced for every non-ok
HTTP response and for the AbortError raised by the timeout abort, the
latter with synthetic status 408 — or, for a rejection that is not an
AbortError and exhausts the retries, the original error object rethrown
unchanged, which came from the fetch oracle at some attempt and has no
status or data field. -/
theorem request_error_taxonomy (ra rd : Nat) (oracle : Nat → FetchOutcome)
    (err : ReqError) (h : (request ra rd oracle).result = .error err) :
    (∃ a : APIError, err = .api a) ∨
    (∃ j : JsError, err = .raw j ∧ j.name ≠ "AbortError" ∧
      ∃ k, 1 ≤ k ∧ oracle k = .rejected j) := by
  simp only [request] at h
  cases ht : (fetchWithRetry ra rd oracle 1).result with
  | ok r =>
    rw [ht] at h
    by_cases hok : r.ok = true
    · simp [hok] at h
    · rw [Bool.not_eq_true] at hok
      simp [hok] at h
      exact Or.inl ⟨_, h.symm⟩
  | error e =>
    rw [ht] at h
    by_cases habort : e.name = "AbortError"
    · simp [habort] at h
      exact Or.inl ⟨_, h.symm⟩
    · simp [habort] at h
      obtain ⟨k, hk1, hk2⟩ := fetchWithRetry_error_src (ra - 1) ra rd 1 oracle e rfl ht
      exact Or.inr ⟨e, h.symm, habort, k, hk1, hk2⟩

/-- Witness for the amended C8: the rethrown TypeError case. -/
theorem request_error_taxonomy_witness :
    (∃ a : APIError, ReqError.raw ⟨"TypeError", "Failed to fetch"⟩ = .api a) ∨
    (∃ j : JsError, ReqError.raw ⟨"TypeError", "Failed to fetch"⟩ = .raw j ∧
      j.name ≠ "AbortError" ∧
      ∃ k, 1 ≤ k ∧ (fun _ : Nat => FetchOutcome.rejected ⟨"TypeError", "Failed to fetch"⟩) k =
        .rejected j) :=
  request_error_taxonomy 3 1000 (fun _ => .rejected ⟨"TypeError", "Failed to fetch"⟩)
    (.raw ⟨"TypeError", "Failed to fetch"⟩) (by simp [request, fetchWithRetry])

/-- Claim C9, counterexample: the claim says that when the fetcher throws,
the cache state for the key is unchanged.  But the initial lookup inside
cachedGet lazily evicts an expired entry before the fetcher runs: with an
entry for k expired at 50 and the fetcher throwing at time 100, the entry
for k is gone afterwards, so the cache state for the key did change. -/
theorem cachedGet_error_evicts_expired_counterexample :
    (cachedGet (Cache.set [] "k" (Value.num 7) 0 50) "k"
        (.error ⟨"TypeError", "Failed to fetch"⟩) 100 60).cache ≠
      Cache.set [] "k" (Value.num 7) 0 50 ∧
    (cachedGet (Cache.set [] "k" (Value.num 7) 0 50) "k"
        (.error ⟨"TypeError", "Failed to fetch"⟩) 100 60).fetcherCalled = true ∧
    (Cache.set [] "k" (Value.num 7) 0 50).findItem "k" = some ⟨Value.num 7, 50⟩ ∧
    (cachedGet (Cache.set [] "k" (Value.num 7) 0 50) "k"
        (.error ⟨"TypeError", "Failed to fetch"⟩) 100 60).cache.findItem "k" = none := by
  refine ⟨by decide, rfl, rfl, rfl⟩

/-- Claim C9 as amended: if the fetcher throws when invoked, cachedGet
rethrows exactly that error, no cache entry is created or modified — the
cache is unchanged except possibly for the lazy removal, by the initial
lookup, of an already-expired entry for the key — and a later call with the
same key invokes the fetcher again, whatever it returns: errors are never
cached. -/
theorem cachedGet_error_not_cached (c : Cache) (k : String) (e : JsError)
    (now ttl : Nat)
    (hcall : (cachedGet c k (.error e) now ttl).fetcherCalled = true) :
    (cachedGet c k (.error e) now ttl).result = .error e ∧
    ((cachedGet c k (.error e) now ttl).cache = c ∨
      (∃ item : CacheItem, c.findItem k = some item ∧ item.expiry < now ∧
        (cachedGet c k (.error e) now ttl).cache = c.del k)) ∧
    (∀ (f2 : Except JsError Value) (t2 ttl2 : Nat),
      (cachedGet ((cachedGet c k (.error e) now ttl).cache) k f2 t2 ttl2).fetcherCalled =
        true) := by
  rcases hfind : c.findItem k with _ | item
  · have hget : c.get k now = (Value.null, c) := by
      unfold Cache.get
      rw [hfind]
    have hcg : cachedGet c k (.error e) now ttl = ⟨.error e, c, true⟩ := by
      unfold cachedGet
      rw [hget]
      rfl
    rw [hcg]
    exact ⟨rfl, Or.inl rfl, fun f2 t2 ttl2 =>
      cachedGet_fetcherCalled c k f2 t2 ttl2 (Cache.get_fst_null c k t2 (Or.inl hfind))⟩
  · by_cases hexp : now > item.expiry
    · have hget : c.get k now = (Value.null, c.del k) := by
        unfold Cache.get
        rw [hfind]
        show (if now > item.expiry then _ else _) = _
        rw [if_pos hexp]
      have hcg : cachedGet c k (.error e) now ttl = ⟨.error e, c.del k, true⟩ := by
        unfold cachedGet
        rw [hget]
        rfl
      rw [hcg]
      exact ⟨rfl, Or.inr ⟨item, rfl, hexp, rfl⟩, fun f2 t2 ttl2 =>
        cachedGet_fetcherCalled (c.del k) k f2 t2 ttl2
          (Cache.get_fst_null (c.del k) k t2 (Or.inl (Cache.findItem_del c k)))⟩
    · have hget : c.get k now = (item.data, c) := by
        unfold Cache.get
        rw [hfind]
        show (if now > item.expiry then _ else _) = _
        rw [if_neg hexp]
      by_cases hd : item.data = Value.null
      · have hcg : cachedGet c k (.error e) now ttl = ⟨.error e, c, true⟩ := by
          unfold cachedGet
          rw [hget]
          show (if item.data = Value.null then _ else _) = _
          rw [if_pos hd]
        rw [hcg]
        exact ⟨rfl, Or.inl rfl, fun f2 t2 ttl2 =>
          cachedGet_fetcherCalled c k f2 t2 ttl2
            (Cache.get_fst_null c k t2 (Or.inr ⟨item, hfind, hd⟩))⟩
      · exfalso
        have hcg : cachedGet c k (.error e) now ttl = ⟨.ok item.data, c, false⟩ := by
          unfold cachedGet
          rw [hget]
          show (if item.data = Value.null then _ else _) = _
          rw [if_neg hd]
        rw [hcg] at hcall
        exact Bool.false_ne_true hcall

/-- Witness for the amended C9: an expired entry for k, fetcher throwing
at time 100; the error is rethrown and a follow-up call at time 200 invokes
the fetcher again. -/
theorem cachedGet_error_not_cached_witness :
    (cachedGet (Cache.set [] "k" (Value.num 7) 0 50) "k" (.error ⟨"E", "m"⟩)
      100 60).result = .error ⟨"E", "m"⟩ ∧
    (cachedGet ((cachedGet (Cache.set [] "k" (Value.num 7) 0 50) "k"
        (.error ⟨"E", "m"⟩) 100 60).cache) "k" (.ok (Value.num 3)) 200 60).fetcherCalled =
      true :=
  ⟨(cachedGet_error_not_cached (Cache.set [] "k" (Value.num 7) 0 50) "k" ⟨"E", "m"⟩
      100 60 (by decide)).1,
   (cachedGet_error_not_cached (Cache.set [] "k" (Value.num 7) 0 50) "k" ⟨"E", "m"⟩
      100 60 (by decide)).2.2 (.ok (Value.num 3)) 200 60⟩

/-- Claim C10: get returns null both for an absent key and for a present
unexpired entry whose stored data is null, so the two cases are
indistinguishable at the interface; consequently, once cachedGet has
fetched and stored a null value, every later call for that key invokes the
fetcher again — a cached null is never served from the cache. -/
theorem cachedGet_null_never_served :
    (∀ (c : Cache) (k : String) (now : Nat),
      c.findItem k = none → (c.get k now).1 = Value.null) ∧
    (∀ (c : Cache) (k : String) (now : Nat) (item : CacheItem),
      c.findItem k = some item → item.data = Value.null →
      (c.get k now).1 = Value.null) ∧
    (∀ (c : Cache) (k : String) (now ttl now2 ttl2 : Nat) (f2 : Except JsError Value),
      (cachedGet c k (.ok Value.null) now ttl).fetcherCalled = true →
      (cachedGet ((cachedGet c k (.ok Value.null) now ttl).cache) k f2
        now2 ttl2).fetcherCalled = true) := by
  refine ⟨fun c k now h => Cache.get_fst_null c k now (Or.inl h),
    fun c k now item h1 h2 => Cache.get_fst_null c k now (Or.inr ⟨item, h1, h2⟩),
    fun c k now ttl now2 ttl2 f2 hcall => ?_⟩
  have hcg : cachedGet c k (.ok Value.null) now ttl =
      (if (c.get k now).1 = Value.null
        then ⟨.ok Value.null, ((c.get k now).2).set k Value.null now ttl, true⟩
        else ⟨.ok (c.get k now).1, (c.get k now).2, false⟩) := by
    unfold cachedGet
    rcases hg : c.get k now with ⟨data, c1⟩
    rfl
  by_cases hnull : (c.get k now).1 = Value.null
  · rw [hcg, if_pos hnull]
    exact cachedGet_fetcherCalled _ k f2 now2 ttl2
      (Cache.get_fst_null _ k now2
        (Or.inr ⟨⟨Value.null, now + ttl⟩, Cache.findItem_set _ k Value.null now ttl, rfl⟩))
  · rw [hcg, if_neg hnull] at hcall
    exact absurd hcall (by simp)

/-- Witness for C10: absent key, stored null, and a refetch after a null
was cached. -/
theorem cachedGet_null_never_served_witness :
    (Cache.get [] "k" 5).1 = Value.null ∧
    ((Cache.set [] "k" Value.null 0 100).get "k" 5).1 = Value.null ∧
    (cachedGet ((cachedGet [] "k" (.ok Value.null) 100 60).cache) "k"
      (.ok (Value.num 3)) 101 60).fetcherCalled = true :=
  ⟨cachedGet_null_never_served.1 [] "k" 5 rfl,
   cachedGet_null_never_served.2.1 (Cache.set [] "k" Value.null 0 100) "k" 5
     ⟨Value.null, 100⟩ (by decide) rfl,
   cachedGet_null_never_served.2.2 [] "k" 100 60 101 60 (.ok (Value.num 3)) (by decide)⟩
